import Mathlib

/-!
Verification of the Spyfall server game logic (`server.js`).

The server keeps two global registries (`games : roomCode → Game`,
`players : socketId → player`) and per-room `Game` objects mutated by
socket handlers.  We embed that state shallowly:

* a JS `Map` becomes an insertion-ordered association list
  (`List (κ × α)`); `Map.set` on an existing key updates in place,
  on a fresh key appends; `Map.delete` removes the entry;
* randomness (`Math.random`-derived indices, `crypto.randomBytes`)
  becomes explicit index/byte parameters;
* `setInterval`/`clearInterval` become a Boolean `timerInterval` flag
  recording whether a live repeating tick is scheduled, plus an explicit
  `tick` step function and a `runTicks` scheduler that only fires while
  the flag is set;
* socket emissions become an explicit `Event` trace returned next to the
  mutated state; an error emission leaves the state unchanged, exactly as
  the early-`return`s in the handlers do;
* wall-clock fields (`startTime`, `createdAt`) and the chat payload
  metadata are omitted: no verified property mentions them.

Player identities (socket ids) are modelled as `Nat`.
-/

namespace Spyfall

/-! ### Association-list model of JS `Map` -/

/-- First value stored under key `k` (JS `Map.get`). -/
def lookupKey {κ α : Type} [DecidableEq κ] (k : κ) : List (κ × α) → Option α
  | [] => none
  | (k2, v) :: rest => if k2 = k then some v else lookupKey k rest

/-- JS `Map.has`. -/
def hasKey {κ α : Type} [DecidableEq κ] (k : κ) (m : List (κ × α)) : Bool :=
  (lookupKey k m).isSome

/-- JS `Map.set`: update in place when the key is present, append otherwise. -/
def setKey {κ α : Type} [DecidableEq κ] (k : κ) (v : α) : List (κ × α) → List (κ × α)
  | [] => [(k, v)]
  | (k2, v2) :: rest => if k2 = k then (k2, v) :: rest else (k2, v2) :: setKey k v rest

/-- JS `Map.delete`: remove the (unique) entry stored under `k`. -/
def eraseKey {κ α : Type} [DecidableEq κ] (k : κ) : List (κ × α) → List (κ × α)
  | [] => []
  | (k2, v2) :: rest => if k2 = k then rest else (k2, v2) :: eraseKey k rest

/-- Mutate the object stored under `k` in place (JS `map.get(k)` followed by a
field assignment on the returned object). -/
def updateKey {κ α : Type} [DecidableEq κ] (k : κ) (f : α → α) : List (κ × α) → List (κ × α)
  | [] => []
  | (k2, v2) :: rest => if k2 = k then (k2, f v2) :: rest else (k2, v2) :: updateKey k f rest

/-- `voteCounts.set(t, (voteCounts.get(t) || 0) + 1)`: increment in place,
or append the key with count 1. -/
def incrKey (k : Nat) : List (Nat × Nat) → List (Nat × Nat)
  | [] => [(k, 1)]
  | (k2, v) :: rest => if k2 = k then (k2, v + 1) :: rest else (k2, v) :: incrKey k rest

/-! ### Game configuration constants (`server.js` lines 13–20) -/

def GAME_TIMER_SECONDS : Int := 480

def MIN_PLAYERS : Nat := 4

def MAX_PLAYERS : Nat := 15

def MAX_NAME_LENGTH : Nat := 20

def MAX_CHAT_LENGTH : Nat := 200

/-! ### Location catalog, flattened (`LOCATIONS`) -/

/-- `Object.values(LOCATION_CATEGORIES).flat()`, in source order. -/
def LOCATIONS : List String :=
  [ "Beach", "Park", "Shopping Mall", "Library", "Zoo", "Museum",
    "Art Gallery", "Cathedral", "Stadium", "Farmers Market", "Fountain Square",
    "Memorial", "Playground", "Botanical Garden", "Observatory",
    "Airport", "Train Station", "Subway", "Bus Stop", "Taxi",
    "Passenger Plane", "Cruise Ship", "Ferry", "Helicopter Pad",
    "Car Dealership", "Gas Station", "Parking Garage",
    "Movie Theater", "Theater", "Casino", "Circus", "Night Club",
    "Bowling Alley", "Arcade", "Comedy Club", "Concert Hall",
    "Amusement Park", "Mini Golf", "Escape Room", "Karaoke Bar",
    "Restaurant", "Cafe", "Fast Food", "Food Truck", "Bakery",
    "Ice Cream Shop", "Pizza Place", "Sushi Bar", "Buffet",
    "Drive-Through", "Food Court", "Wine Tasting", "Vineyard",
    "Hospital", "Doctors Office", "Dentist", "Pharmacy", "Veterinary Clinic",
    "Physical Therapy", "Day Spa", "Massage Parlor", "Yoga Studio",
    "Gym", "Blood Bank", "Mental Health Clinic",
    "School", "University", "Kindergarten", "Driving School", "Language School",
    "Art School", "Cooking Class", "Dance Studio", "Music School",
    "Tutoring Center", "Laboratory", "Lecture Hall",
    "Bank", "Office", "Corporate Party", "Meeting Room", "Coworking Space",
    "Law Firm", "Accounting Office", "Real Estate Agency", "Insurance Office",
    "Post Office", "Print Shop", "Copy Center",
    "Police Station", "Fire Station", "Embassy", "City Hall", "Courthouse",
    "DMV", "Passport Office", "Social Security Office", "Tax Office",
    "Hair Salon", "Barbershop", "Laundromat", "Dry Cleaner",
    "Hotel", "Motel", "Hostel", "Bed & Breakfast", "Resort",
    "Camping Ground", "RV Park", "Guest House", "Vacation Rental",
    "Grocery Store", "Department Store", "Clothing Store", "Electronics Store",
    "Bookstore", "Toy Store", "Pet Store", "Jewelry Store", "Furniture Store",
    "Hardware Store", "Thrift Shop", "Antique Shop",
    "Space Station", "Pirate Ship", "Polar Station", "Military Base",
    "Prison", "Retirement Home", "Factory", "Construction Site",
    "Oil Rig", "Lighthouse", "Nuclear Plant",
    "Mountain Cabin", "Lake House", "Fishing Pier", "Hiking Trail",
    "Ski Resort", "Beach Resort", "National Park", "Safari",
    "Desert Camp", "Forest Lodge", "River Rapids", "Cave Exploration" ]

/-! ### Input sanitization (`sanitizePlayerName`) -/

/-- The characters stripped by `.replace(/[<>'"&]/g, '')`. -/
def XSS_CHARS : List Char := ['<', '>', '\'', '\"', '&']

/-- The character class kept by `.replace(/[^a-zA-Z0-9 ]/g, '')`. -/
def isAllowedNameChar (c : Char) : Bool :=
  c.isAlpha || c.isDigit || c = ' '

/-- JS `String.prototype.trim` on a character list. -/
def jsTrim (s : List Char) : List Char :=
  ((s.dropWhile Char.isWhitespace).reverse.dropWhile Char.isWhitespace).reverse

/-- `sanitizePlayerName` (`server.js` lines 148–154): trim, strip the XSS
characters, keep only alphanumerics and spaces, truncate to
`MAX_NAME_LENGTH`. -/
def sanitizePlayerName (name : String) : String :=
  String.mk
    ((((jsTrim name.toList).filter (fun c => !(XSS_CHARS.contains c))).filter
        isAllowedNameChar).take MAX_NAME_LENGTH)

/-! ### Room codes (`generateRoomCode`) -/

/-- Lowercase hexadecimal digit of a nibble, as produced by
`Buffer.toString('hex')`: codepoint 48 is the digit zero, 97 is the letter
a. -/
def hexDigit (n : Nat) : Char :=
  if n % 16 < 10 then Char.ofNat (48 + n % 16) else Char.ofNat (87 + n % 16)

/-- The alphabet of a generated room code after `.toUpperCase()`: a decimal
digit or an uppercase letter from the first six. -/
def isUpperHexDigit (c : Char) : Bool :=
  c.isDigit || ('A' ≤ c && c ≤ 'F')

/-- Hex encoding of one byte: high nibble then low nibble. -/
def byteToHex (b : Nat) : List Char := [hexDigit (b / 16), hexDigit b]

/-- `crypto.randomBytes(2).toString('hex').toUpperCase()` with the two random
bytes passed explicitly. -/
def generateRoomCode (b0 b1 : Nat) : String :=
  String.mk ((byteToHex b0 ++ byteToHex b1).map Char.toUpper)

/-! ### Data model -/

inductive Status where
  | lobby
  | playing
  | voting
  | ended
deriving DecidableEq

inductive Role where
  | spy
  | nonSpy
deriving DecidableEq

structure Player where
  id : Nat
  name : String
  role : Option Role
  isHost : Bool
  hasVoted : Bool
  votedFor : Option Nat
  hasGuessed : Bool
deriving DecidableEq

structure Game where
  roomCode : String
  hostId : Nat
  players : List (Nat × Player)
  status : Status
  location : Option String
  spyId : Option Nat
  timer : Int
  timerInterval : Bool
  votes : List (Nat × Nat)
  voteCalled : Bool
deriving DecidableEq

/-- Broadcast / unicast outputs of the handlers, in emission order. -/
inductive Event where
  | timerUpdate (t : Int)
  | gameEnded (reason : String) (winner : Option String)
  | voteUpdate (votesSubmitted totalPlayers : Nat)
  | voteStarted
  | chatMessage (text : String)
  | roomCreated (roomCode : String)
  | errorMsg (msg : String)
deriving DecidableEq

/-- `createGame(roomCode, hostId)` (`server.js` lines 239–254). -/
def createGame (roomCode : String) (hostId : Nat) : Game :=
  { roomCode := roomCode
    hostId := hostId
    players := []
    status := .lobby
    location := none
    spyId := none
    timer := GAME_TIMER_SECONDS
    timerInterval := false
    votes := []
    voteCalled := false }

/-- `addPlayerToGame` (`server.js` lines 257–273); the secondary
socket-indexed registry entry is kept implicitly by using the socket id as
the player id. -/
def addPlayerToGame (g : Game) (playerId : Nat) (playerName : String) : Game :=
  let player : Player :=
    { id := playerId
      name := playerName
      role := none
      isHost := decide (playerId = g.hostId)
      hasVoted := false
      votedFor := none
      hasGuessed := false }
  { g with players := setKey playerId player g.players }

/-! ### Ending a round (`endGame`, lines 373–390)

`endGame` cancels any live interval, sets the phase to `ended` and
broadcasts the result payload; we record the payload's `reason` and
`winner` (the omitted `winner` argument of JS defaults to `null`). -/

def endGame (g : Game) (reason : String) (winner : Option String) : Game × List Event :=
  ({ g with timerInterval := false, status := .ended }, [Event.gameEnded reason winner])

/-! ### Starting a round (`startGame`, lines 302–370)

The success path is a sequence of in-place mutations; we name each one so
that the mutation order of the source is visible to the theorems. -/

/-- `game.status = 'playing'` — the first mutation after the guards. -/
def sgSetPlaying (g : Game) : Game := { g with status := .playing }

/-- Clear any pre-existing interval (`clearInterval`; the field ends up
`null` whether or not an interval was live). -/
def sgClearTimer (g : Game) : Game := { g with timerInterval := false }

/-- Reset `timer`, `voteCalled` and the `votes` map for the new round. -/
def sgResetRound (g : Game) : Game :=
  { g with timer := GAME_TIMER_SECONDS, voteCalled := false, votes := [] }

/-- The `game.players.forEach` body of `startGame`: assign `spy` to the
chosen identity and `non-spy` to everyone else, and re-arm every player's
vote and guess flags. -/
def assignRolesList (spyId : Option Nat) (players : List (Nat × Player)) :
    List (Nat × Player) :=
  players.map (fun pr =>
    (pr.1,
      { pr.2 with
        role := some (if some pr.1 = spyId then Role.spy else Role.nonSpy)
        hasVoted := false
        votedFor := none
        hasGuessed := false }))

/-- Pick the spy (`playerIds[spyIndex]`) and the secret location
(`LOCATIONS[locIdx]`) and assign the roles.  An out-of-range index yields
`none`, matching the `undefined` a JS out-of-range read would produce. -/
def sgAssignRoles (spyIndex locIdx : Nat) (g : Game) : Game :=
  let spyId := (g.players.map Prod.fst)[spyIndex]?
  { g with
    spyId := spyId
    location := LOCATIONS[locIdx]?
    players := assignRolesList spyId g.players }

/-- `setInterval(..., 1000)`: a live repeating tick is now scheduled. -/
def sgStartTimer (g : Game) : Game := { g with timerInterval := true }

/-- The successive states of the success path, in source statement order
(welcome chat and `startTime` do not mutate verified fields). -/
def startGameIntermediates (spyIndex locIdx : Nat) (g : Game) : List Game :=
  let g1 := sgSetPlaying g
  let g2 := sgClearTimer g1
  let g3 := sgResetRound g2
  let g4 := sgAssignRoles spyIndex locIdx g3
  let g5 := sgStartTimer g4
  [g1, g2, g3, g4, g5]

/-- `startGame(game)` (`server.js` lines 302–370).  The player-count guard
precedes the phase guard, exactly as in the source.  The two random draws
(`Math.floor(Math.random() * playerIds.length)` and the location pick of
`getRandomLocation`) are the explicit index parameters. -/
def startGame (spyIndex locIdx : Nat) (g : Game) : Except String Game :=
  if g.players.length < MIN_PLAYERS ∨ MAX_PLAYERS < g.players.length then
    .error "Game needs 4-15 players"
  else if g.status ≠ Status.lobby then
    .error "Game already in progress"
  else
    .ok (sgStartTimer (sgAssignRoles spyIndex locIdx (sgResetRound (sgClearTimer (sgSetPlaying g)))))

/-- The state the caller observes after `startGame`: unchanged on failure
(the guards `return` before any mutation). -/
def applyStart (spyIndex locIdx : Nat) (g : Game) : Game :=
  match startGame spyIndex locIdx g with
  | .ok g2 => g2
  | .error _ => g

/-! ### The countdown (`setInterval` callback, lines 359–367) -/

/-- One interval tick: decrement, broadcast `timerUpdate`, and on reaching
zero cancel the interval and call `endGame(game, 'timeout')`.  When no
interval is live the callback never fires. -/
def tick (g : Game) : Game × List Event :=
  if g.timerInterval then
    let g1 := { g with timer := g.timer - 1 }
    if g1.timer ≤ 0 then
      let e := endGame { g1 with timerInterval := false } "timeout" none
      (e.1, Event.timerUpdate g1.timer :: e.2)
    else
      (g1, [Event.timerUpdate g1.timer])
  else
    (g, [])

/-- Run the scheduler for `n` seconds: the interval callback fires once per
second while a live interval exists. -/
def runTicks : Nat → Game → Game × List Event
  | 0, g => (g, [])
  | n + 1, g =>
    if g.timerInterval then
      let s := tick g
      let r := runTicks n s.1
      (r.1, s.2 ++ r.2)
    else
      (g, [])

/-! ### Vote resolution (`processVotes`, lines 393–441) -/

/-- The `voteCounts` map: one pass over the roster in insertion order,
skipping players whose `votedFor` is unset (`if (player.votedFor)`). -/
def voteCountsOf (players : List (Nat × Player)) : List (Nat × Nat) :=
  players.foldl
    (fun acc pr =>
      match pr.2.votedFor with
      | some t => incrKey t acc
      | none => acc)
    []

/-- First pass over `voteCounts`: the maximum count (starting from 0). -/
def maxCount (counts : List (Nat × Nat)) : Nat :=
  counts.foldl (fun m pr => if pr.2 > m then pr.2 else m) 0

/-- Second pass: all targets achieving the maximum count. -/
def maxWinners (players : List (Nat × Player)) : List Nat :=
  ((voteCountsOf players).filter
      (fun pr => pr.2 = maxCount (voteCountsOf players))).map Prod.fst

/-- Spec-side tally: the number of submitted votes naming `t`. -/
def countVotesFor (t : Nat) (players : List (Nat × Player)) : Nat :=
  (players.filter (fun pr => pr.2.votedFor = some t)).length

/-- `processVotes` (`server.js` lines 393–441).  `accusedPlayerId ===
game.spyId` is a strict JS equality: it holds only when both sides are
defined and equal, so an `undefined` accused (empty winner list) or a
`null` `spyId` falls through to `innocent_accused`. -/
def processVotes (g : Game) : Game × List Event :=
  let totalPlayers := g.players.length
  let votesSubmitted := (g.players.filter (fun pr => pr.2.hasVoted)).length
  if votesSubmitted = totalPlayers then
    let winners := maxWinners g.players
    if 1 < winners.length then
      endGame g "vote_tie" (some "spy")
    else
      match winners.head?, g.spyId with
      | some a, some s =>
        if a = s then endGame g "spy_caught" (some "non-spies")
        else endGame g "innocent_accused" (some "spy")
      | _, _ => endGame g "innocent_accused" (some "spy")
  else
    (g, [])

/-! ### Socket handlers -/

/-- The `submitVote` handler (`server.js` lines 630–664), given the
resolved voter identity.  A voter absent from the roster is modelled as a
silent no-op; in every reachable state the resolved voter is a roster
member, so the branch is never exercised by the theorems. -/
def submitVoteHandler (voterId accusedId : Nat) (g : Game) : Game × List Event :=
  if g.status ≠ Status.voting then (g, [])
  else if !(hasKey accusedId g.players) then
    (g, [Event.errorMsg "Invalid vote target"])
  else if accusedId = voterId then
    (g, [Event.errorMsg "You cannot vote for yourself"])
  else
    match lookupKey voterId g.players with
    | none => (g, [])
    | some gp =>
      if gp.hasVoted then (g, [])
      else
        let recorded :=
          updateKey voterId
            (fun p => { p with hasVoted := true, votedFor := some accusedId }) g.players
        let g1 := { g with players := recorded }
        let votesSubmitted := (g1.players.filter (fun pr => pr.2.hasVoted)).length
        let r := processVotes g1
        (r.1, Event.voteUpdate votesSubmitted g1.players.length :: r.2)

/-- The `spyGuess` handler (`server.js` lines 667–698).  The comparison
`guessedLocation === game.location` holds only when the round's location is
set and equal to the guess, character for character. -/
def spyGuessHandler (guesserId : Nat) (loc : String) (g : Game) : Game × List Event :=
  if g.status ≠ Status.playing then (g, [])
  else
    match lookupKey guesserId g.players with
    | none => (g, [])
    | some gp =>
      if gp.role ≠ some Role.spy then
        (g, [Event.errorMsg "Only spy can guess location"])
      else if !(LOCATIONS.contains loc) then
        (g, [Event.errorMsg "Invalid location"])
      else if gp.hasGuessed then
        (g, [Event.errorMsg "Already guessed"])
      else
        let armed := updateKey guesserId (fun p => { p with hasGuessed := true }) g.players
        let g1 := { g with players := armed }
        if g.location = some loc then
          endGame g1 "spy_guessed" (some "spy")
        else
          endGame g1 "spy_wrong_guess" (some "non-spies")

/-- The `callVote` handler (`server.js` lines 595–627), after its
per-socket cooldown check.  `clearInterval` stops the live countdown, so
`timerInterval` becomes `false` (the JS field keeps a dead handle, but no
tick ever fires from it again). -/
def callVoteHandler (g : Game) : Game × List Event :=
  if g.status ≠ Status.playing then (g, [])
  else if g.voteCalled then (g, [Event.errorMsg "Vote already called"])
  else
    ({ g with status := .voting, voteCalled := true, timerInterval := false },
      [Event.voteStarted])

/-- The game-level part of the `joinRoom` handler (`server.js` lines
497–557): sanitize, then the lobby / capacity / duplicate-name guards,
then `addPlayerToGame`. -/
def joinRoomGame (pid : Nat) (rawName : String) (g : Game) : Game :=
  let n := sanitizePlayerName rawName
  if n.length < 2 then g
  else if g.status ≠ Status.lobby then g
  else if MAX_PLAYERS ≤ g.players.length then g
  else if g.players.any (fun pr => pr.2.name = n) then g
  else addPlayerToGame g pid n

/-- `removePlayerFromGame` (`server.js` lines 276–299): drop the entry,
promote the first remaining member (`players.values().next().value`) when
the host left, and on emptiness cancel any live interval (the registry
deletion is `removePlayerRegistry`). -/
def removePlayerFromGame (g : Game) (playerId : Nat) : Game :=
  let g3 :=
    match lookupKey playerId g.players with
    | none => g
    | some _ =>
      let g2 := { g with players := eraseKey playerId g.players }
      if playerId = g.hostId ∧ g2.players ≠ [] then
        match g2.players.head? with
        | some pr =>
          { g2 with
            hostId := pr.2.id
            players := updateKey pr.1 (fun p => { p with isHost := true }) g2.players }
        | none => g2
      else g2
  if g3.players = [] then { g3 with timerInterval := false } else g3

/-- The registry effect of a departure: the mutated game stays registered
under its code unless it became empty, in which case `games.delete`
removes it. -/
def removePlayerRegistry (games : List (String × Game)) (roomCode : String)
    (playerId : Nat) : List (String × Game) :=
  match lookupKey roomCode games with
  | none => games
  | some g =>
    let g2 := removePlayerFromGame g playerId
    if g2.players = [] then eraseKey roomCode games else setKey roomCode g2 games

/-- The `createRoom` handler (`server.js` lines 473–494) with the
generated code passed explicitly.  `games.set(roomCode, game)` registers
the new game unconditionally — there is no registry lookup before it. -/
def createRoomHandler (generatedCode : String) (pid : Nat) (rawName : String)
    (games : List (String × Game)) : List (String × Game) × List Event :=
  let n := sanitizePlayerName rawName
  if n.length < 2 then
    (games, [Event.errorMsg "Player name must be at least 2 characters"])
  else
    let game := addPlayerToGame (createGame generatedCode pid) pid n
    (setKey generatedCode game games, [Event.roomCreated generatedCode])

/-! ### The operation alphabet of one room (for phase-transition claims) -/

inductive Op where
  | startOp (spyIndex locIdx : Nat)
  | callVoteOp
  | submitVoteOp (voterId accusedId : Nat)
  | spyGuessOp (guesserId : Nat) (loc : String)
  | tickOp
  | joinOp (pid : Nat) (rawName : String)
  | leaveOp (pid : Nat)
  | chatOp
deriving DecidableEq

/-- The game state after one handler invocation.  The chat handler
(`sendMessage`) only broadcasts and never writes a game field. -/
def applyOp : Op → Game → Game
  | .startOp i j, g => applyStart i j g
  | .callVoteOp, g => (callVoteHandler g).1
  | .submitVoteOp v a, g => (submitVoteHandler v a g).1
  | .spyGuessOp p l, g => (spyGuessHandler p l g).1
  | .tickOp, g => (tick g).1
  | .joinOp pid n, g => joinRoomGame pid n g
  | .leaveOp pid, g => removePlayerFromGame g pid
  | .chatOp, g => g

/-! ### Shared concrete fixtures -/

/-- A fresh lobby member as `addPlayerToGame` would create it. -/
def samplePlayer (i : Nat) : Player :=
  { id := i
    name := "P"
    role := none
    isHost := decide (i = 1)
    hasVoted := false
    votedFor := none
    hasGuessed := false }

/-- A lobby with members `1, …, n`, hosted by `1`. -/
def lobbyGame (n : Nat) : Game :=
  { createGame "AB12" 1 with
      players := (List.range n).map (fun i => (i + 1, samplePlayer (i + 1))) }

/-- A started 4-player round: spy is player `3`, location `Beach`. -/
def playingGame : Game := applyStart 2 0 (lobbyGame 4)

end Spyfall

deriving instance DecidableEq for Except

set_option maxRecDepth 40000

namespace Spyfall

/-! ### Association-list lemmas -/

theorem lookupKey_setKey_self {κ α : Type} [DecidableEq κ] (k : κ) (v : α)
    (m : List (κ × α)) : lookupKey k (setKey k v m) = some v := by
  induction m with
  | nil => simp [setKey, lookupKey]
  | cons hd tl ih =>
    obtain ⟨k2, v2⟩ := hd
    by_cases h : k2 = k
    · simp [setKey, lookupKey, h]
    · simp [setKey, lookupKey, h, ih]

/-! ### Claim C9 — name sanitization and the short-name guard -/

theorem hexDigit_toUpper_mem (n : Nat) : isUpperHexDigit (hexDigit n).toUpper = true := by
  have h : n % 16 < 16 := Nat.mod_lt _ (by norm_num)
  have hall : ∀ k, k < 16 →
      isUpperHexDigit (hexDigit k).toUpper = true := by decide
  have h16 : hexDigit (n % 16) = hexDigit n := by
    simp [hexDigit, Nat.mod_mod_of_dvd n (dvd_refl 16)]
  rw [← h16]
  exact hall (n % 16) h

/-- C9: every sanitized player name is free of all five markup-significant
characters in `XSS_CHARS` and has length at most `MAX_NAME_LENGTH = 20`;
the input `<script>Bob</script>` sanitizes to `scriptBobscript`; and a name
whose sanitized form is shorter than 2 characters makes `createRoom` emit an
error and register nothing. -/
theorem sanitizePlayerName_safe (name : String) :
    (∀ c ∈ (sanitizePlayerName name).toList, c ∉ XSS_CHARS)
    ∧ (sanitizePlayerName name).length ≤ MAX_NAME_LENGTH
    ∧ sanitizePlayerName "<script>Bob</script>" = "scriptBobscript"
    ∧ (∀ (code : String) (pid : Nat) (games : List (String × Game)),
        (sanitizePlayerName name).length < 2 →
        createRoomHandler code pid name games
          = (games, [Event.errorMsg "Player name must be at least 2 characters"])) := by
  refine ⟨?_, ?_, by decide, ?_⟩
  · intro c hc
    have hc2 : c ∈ (((jsTrim name.toList).filter
        (fun c => !(XSS_CHARS.contains c))).filter isAllowedNameChar).take MAX_NAME_LENGTH := hc
    have hc3 := List.mem_of_mem_take hc2
    have hc4 := (List.mem_filter.mp hc3).1
    have hc5 := (List.mem_filter.mp hc4).2
    simp only [Bool.not_eq_true'] at hc5
    intro hmem
    simp at hc5
    exact hc5 hmem
  · have : (sanitizePlayerName name).length
        = ((((jsTrim name.toList).filter (fun c => !(XSS_CHARS.contains c))).filter
            isAllowedNameChar).take MAX_NAME_LENGTH).length := rfl
    rw [this]
    exact List.length_take_le _ _
  · intro code pid games h
    simp only [createRoomHandler]
    rw [if_pos h]

/-- Witness for C9 at a too-short name. -/
theorem sanitizePlayerName_safe_witness :
    (sanitizePlayerName "A").length < 2
    ∧ createRoomHandler "AB12" 1 "A" []
        = ([], [Event.errorMsg "Player name must be at least 2 characters"]) :=
  ⟨by decide, (sanitizePlayerName_safe "A").2.2.2 "AB12" 1 [] (by decide)⟩

/-! ### Claim C4 — room-code generation and registration -/

/-- C4 counterexample: with a room already registered under `AB12`,
`createRoom` that draws the same code silently replaces the old room's
`Game` — there is no collision check before `games.set`. -/
theorem createRoom_collision_cex :
    lookupKey "AB12" (createRoomHandler "AB12" 2 "Bob"
        [("AB12", addPlayerToGame (createGame "AB12" 1) 1 "Alice")]).1
      = some (addPlayerToGame (createGame "AB12" 2) 2 "Bob")
    ∧ addPlayerToGame (createGame "AB12" 2) 2 "Bob"
        ≠ addPlayerToGame (createGame "AB12" 1) 1 "Alice" := by
  constructor <;> decide

/-- C4 amended: `generateRoomCode` hex-encodes two random bytes into a
4-character uppercase code without consulting the registry, and `createRoom`
registers the new `Game` under that code unconditionally (`games.set`),
overwriting whatever the code previously mapped to. -/
theorem createRoom_registers_unconditionally (b0 b1 : Nat) :
    ((generateRoomCode b0 b1).length = 4
      ∧ ∀ c ∈ (generateRoomCode b0 b1).toList, isUpperHexDigit c = true)
    ∧ ∀ (games : List (String × Game)) (code : String) (pid : Nat) (name : String),
        2 ≤ (sanitizePlayerName name).length →
        (createRoomHandler code pid name games).1
          = setKey code
              (addPlayerToGame (createGame code pid) pid (sanitizePlayerName name)) games
        ∧ lookupKey code (createRoomHandler code pid name games).1
          = some (addPlayerToGame (createGame code pid) pid (sanitizePlayerName name)) := by
  refine ⟨⟨?_, ?_⟩, ?_⟩
  · show ((byteToHex b0 ++ byteToHex b1).map Char.toUpper).length = 4
    simp [byteToHex]
  · intro c hc
    have hc2 : c ∈ (byteToHex b0 ++ byteToHex b1).map Char.toUpper := hc
    rcases List.mem_map.mp hc2 with ⟨d, hd, rfl⟩
    simp only [byteToHex, List.mem_append, List.mem_cons, List.not_mem_nil, or_false] at hd
    rcases hd with (rfl | rfl) | (rfl | rfl) <;> exact hexDigit_toUpper_mem _
  · intro games code pid name h
    have hn : ¬ (sanitizePlayerName name).length < 2 := by omega
    constructor
    · simp only [createRoomHandler]
      rw [if_neg hn]
    · simp only [createRoomHandler]
      rw [if_neg hn]
      exact lookupKey_setKey_self _ _ _

/-! ### Claim C3 — startGame guards and mutation order -/

/-- C3 counterexample: a game whose phase is `playing` but whose roster has
3 members is rejected with the player-count error, not with
`Game already in progress` — the roster-size guard runs first. -/
theorem startGame_guard_order_cex :
    startGame 0 0 { lobbyGame 3 with status := Status.playing }
      = .error "Game needs 4-15 players"
    ∧ ("Game needs 4-15 players" : String) ≠ "Game already in progress" := by
  constructor <;> decide

/-- C3 amended: `startGame` is rejected whenever the phase is not `lobby` —
with `Game already in progress` when the roster size is in `[4,15]` and
with the player-count error otherwise, the size guard being checked first;
for a roster size outside `[4,15]` it always fails with the player-count
error and leaves the state (hence the phase) unchanged; on the success
path the phase is set to `playing` by the very first mutation, every later
intermediate state already has phase `playing`, and the last intermediate
state is the observed result. -/
theorem startGame_guards (g : Game) (i j : Nat) :
    (g.status ≠ Status.lobby →
      applyStart i j g = g
      ∧ (MIN_PLAYERS ≤ g.players.length → g.players.length ≤ MAX_PLAYERS →
          startGame i j g = .error "Game already in progress")
      ∧ ((g.players.length < MIN_PLAYERS ∨ MAX_PLAYERS < g.players.length) →
          startGame i j g = .error "Game needs 4-15 players"))
    ∧ ((g.players.length < MIN_PLAYERS ∨ MAX_PLAYERS < g.players.length) →
        startGame i j g = .error "Game needs 4-15 players" ∧ applyStart i j g = g)
    ∧ (g.status = Status.lobby → MIN_PLAYERS ≤ g.players.length →
        g.players.length ≤ MAX_PLAYERS →
        (startGameIntermediates i j g).head? = some (sgSetPlaying g)
        ∧ sgSetPlaying g = { g with status := Status.playing }
        ∧ (∀ h ∈ startGameIntermediates i j g, h.status = Status.playing)
        ∧ (startGameIntermediates i j g).getLast? = some (applyStart i j g)) := by
  refine ⟨?_, ?_, ?_⟩
  · intro hs
    by_cases hc : g.players.length < MIN_PLAYERS ∨ MAX_PLAYERS < g.players.length
    · refine ⟨?_, ?_, fun _ => ?_⟩
      · simp [applyStart, startGame, if_pos hc]
      · intro hmin hmax
        exact absurd hc (by omega)
      · simp [startGame, if_pos hc]
    · refine ⟨?_, fun _ _ => ?_, fun hc2 => absurd hc2 hc⟩
      · simp [applyStart, startGame, if_neg hc, if_pos hs]
      · simp [startGame, if_neg hc, if_pos hs]
  · intro hc
    exact ⟨by simp [startGame, if_pos hc], by simp [applyStart, startGame, if_pos hc]⟩
  · intro hs hmin hmax
    have hc : ¬ (g.players.length < MIN_PLAYERS ∨ MAX_PLAYERS < g.players.length) := by
      omega
    have hs2 : ¬ g.status ≠ Status.lobby := by simp [hs]
    refine ⟨rfl, rfl, ?_, ?_⟩
    · intro h hh
      simp only [startGameIntermediates, List.mem_cons, List.not_mem_nil, or_false] at hh
      rcases hh with rfl | rfl | rfl | rfl | rfl <;> rfl
    · simp [startGameIntermediates, applyStart, startGame, if_neg hc, if_neg hs2]

/-- Witness for the amended C3. -/
theorem startGame_guards_witness :
    startGame 0 0 { lobbyGame 4 with status := Status.ended }
      = .error "Game already in progress"
    ∧ (startGameIntermediates 1 0 (lobbyGame 4)).head?
        = some (sgSetPlaying (lobbyGame 4)) :=
  ⟨((startGame_guards { lobbyGame 4 with status := Status.ended } 0 0).1
      (by decide)).2.1 (by decide) (by decide),
   ((startGame_guards (lobbyGame 4) 1 0).2.2 (by decide) (by decide) (by decide)).1⟩

/-! ### Claim C5 — timeout termination of the countdown -/

theorem runTicks_no_interval (n : Nat) (g : Game) (h : g.timerInterval = false) :
    runTicks n g = (g, []) := by
  cases n with
  | zero => rfl
  | succ n => simp [runTicks, h]

/-- C5: on the tick where the running countdown reaches zero, a game in
phase `playing` transitions to `ended`, a `gameEnded` broadcast with reason
`timeout` is emitted, the repeating interval is cancelled, and no later
tick fires — so the only `timerUpdate` of that trace precedes the
transition and none follows it. -/
theorem tick_timeout (g : Game) (hs : g.status = Status.playing)
    (hi : g.timerInterval = true) (ht : g.timer ≤ 1) :
    (tick g).1.status = Status.ended
    ∧ (tick g).1.timerInterval = false
    ∧ (tick g).2 = [Event.timerUpdate (g.timer - 1), Event.gameEnded "timeout" none]
    ∧ (∀ n, runTicks n (tick g).1 = ((tick g).1, [])) := by
  have h0 : g.timer - 1 ≤ 0 := by omega
  have htick : tick g
      = ({ g with timer := g.timer - 1, timerInterval := false, status := Status.ended },
         [Event.timerUpdate (g.timer - 1), Event.gameEnded "timeout" none]) := by
    simp [tick, hi, endGame, if_pos h0]
    omega
  refine ⟨by rw [htick], by rw [htick], by rw [htick], fun n => ?_⟩
  apply runTicks_no_interval
  rw [htick]

/-- Witness for C5: the started 4-player round with one second left. -/
theorem tick_timeout_witness :
    (tick { playingGame with timer := 1 }).2
      = [Event.timerUpdate 0, Event.gameEnded "timeout" none]
    ∧ (tick { playingGame with timer := 1 }).1.status = Status.ended
    ∧ runTicks 3 (tick { playingGame with timer := 1 }).1
        = ((tick { playingGame with timer := 1 }).1, []) := by
  have h := tick_timeout { playingGame with timer := 1 } (by decide) (by decide) (by decide)
  exact ⟨by simpa using h.2.2.1, h.1, h.2.2.2 3⟩

/-! ### Claim C6 — spy location guessing -/

theorem spyGuess_not_playing (g : Game) (h : g.status ≠ Status.playing)
    (pid : Nat) (loc : String) : spyGuessHandler pid loc g = (g, []) := by
  simp [spyGuessHandler, if_pos h]

/-- C6: `spyGuess` is a no-op outside phase `playing`; in `playing` it
rejects a non-spy guesser, a location outside the catalog, and a repeat
guess, each without changing the state; a first guess equal (string
equality) to the round's secret location ends the game `spy_guessed` with
winner `spy`, any other catalog location ends it `spy_wrong_guess` with
winner `non-spies`, and after either resolution a further guess by anyone
is a no-op, so the first guess alone decides the outcome. -/
theorem spyGuess_spec (g : Game) (pid : Nat) (loc : String) (gp : Player)
    (hp : lookupKey pid g.players = some gp) :
    (∀ g2 : Game, g2.status ≠ Status.playing →
        ∀ (pid2 : Nat) (loc2 : String), spyGuessHandler pid2 loc2 g2 = (g2, []))
    ∧ (g.status = Status.playing →
        (gp.role ≠ some Role.spy →
          spyGuessHandler pid loc g = (g, [Event.errorMsg "Only spy can guess location"]))
        ∧ (gp.role = some Role.spy → loc ∉ LOCATIONS →
          spyGuessHandler pid loc g = (g, [Event.errorMsg "Invalid location"]))
        ∧ (gp.role = some Role.spy → loc ∈ LOCATIONS → gp.hasGuessed = true →
          spyGuessHandler pid loc g = (g, [Event.errorMsg "Already guessed"]))
        ∧ (gp.role = some Role.spy → loc ∈ LOCATIONS → gp.hasGuessed = false →
            (g.location = some loc →
              spyGuessHandler pid loc g
                = ({ g with
                      players := updateKey pid
                        (fun p => { p with hasGuessed := true }) g.players
                      timerInterval := false
                      status := Status.ended },
                   [Event.gameEnded "spy_guessed" (some "spy")]))
            ∧ (g.location ≠ some loc →
              spyGuessHandler pid loc g
                = ({ g with
                      players := updateKey pid
                        (fun p => { p with hasGuessed := true }) g.players
                      timerInterval := false
                      status := Status.ended },
                   [Event.gameEnded "spy_wrong_guess" (some "non-spies")]))
            ∧ (∀ (pid2 : Nat) (loc2 : String),
                spyGuessHandler pid2 loc2 (spyGuessHandler pid loc g).1
                  = ((spyGuessHandler pid loc g).1, [])))) := by
  refine ⟨fun g2 h2 pid2 loc2 => spyGuess_not_playing g2 h2 pid2 loc2, fun hs => ?_⟩
  have hs2 : ¬ g.status ≠ Status.playing := by simp [hs]
  refine ⟨?_, ?_, ?_, ?_⟩
  · intro hrole
    simp [spyGuessHandler, if_neg hs2, hp, if_pos hrole]
  · intro hrole hloc
    have hr2 : ¬ gp.role ≠ some Role.spy := by simp [hrole]
    simp [spyGuessHandler, if_neg hs2, hp, if_neg hr2, hloc]
  · intro hrole hloc hg
    have hr2 : ¬ gp.role ≠ some Role.spy := by simp [hrole]
    simp [spyGuessHandler, if_neg hs2, hp, if_neg hr2, hloc, hg]
  · intro hrole hloc hg
    have hr2 : ¬ gp.role ≠ some Role.spy := by simp [hrole]
    have hres : ∀ loc2, g.location ≠ some loc →
        spyGuessHandler pid loc2 g = spyGuessHandler pid loc2 g := fun _ _ => rfl
    refine ⟨?_, ?_, ?_⟩
    · intro hl
      simp [spyGuessHandler, if_neg hs2, hp, if_neg hr2, hloc, hg, hl, endGame]
    · intro hl
      simp [spyGuessHandler, if_neg hs2, hp, if_neg hr2, hloc, hg, hl, endGame]
    · intro pid2 loc2
      have hst : (spyGuessHandler pid loc g).1.status = Status.ended := by
        by_cases hl : g.location = some loc
        · simp [spyGuessHandler, if_neg hs2, hp, if_neg hr2, hloc, hg, hl, endGame]
        · simp [spyGuessHandler, if_neg hs2, hp, if_neg hr2, hloc, hg, hl, endGame]
      exact spyGuess_not_playing _ (by simp [hst]) pid2 loc2

/-- Witness for C6 on the started 4-player round (spy is player 3, secret
location `Beach`). -/
theorem spyGuess_spec_witness :
    (spyGuessHandler 3 "Beach" playingGame).2
      = [Event.gameEnded "spy_guessed" (some "spy")]
    ∧ (spyGuessHandler 3 "Park" playingGame).2
      = [Event.gameEnded "spy_wrong_guess" (some "non-spies")]
    ∧ spyGuessHandler 1 "Park" playingGame
      = (playingGame, [Event.errorMsg "Only spy can guess location"]) := by
  have h := spyGuess_spec playingGame 3 "Beach"
    ⟨3, "P", some Role.spy, false, false, none, false⟩ (by decide)
  have h2 := spyGuess_spec playingGame 3 "Park"
    ⟨3, "P", some Role.spy, false, false, none, false⟩ (by decide)
  have h3 := spyGuess_spec playingGame 1 "Park"
    ⟨1, "P", some Role.nonSpy, true, false, none, false⟩ (by decide)
  refine ⟨?_, ?_, ?_⟩
  · rw [((h.2 (by decide)).2.2.2 (by decide) (by decide) (by decide)).1 (by decide)]
  · rw [((h2.2 (by decide)).2.2.2 (by decide) (by decide) (by decide)).2.1 (by decide)]
  · exact (h3.2 (by decide)).1 (by decide)

/-! ### Claim C7 — vote submission guards -/

/-- C7: `submitVote` is a no-op outside phase `voting`; in `voting` it
rejects an accused identity not in the roster and a self-accusation with an
error and no state change, and a second vote attempt by a player who has
already voted is silently ignored: no event, no change to any vote state. -/
theorem submitVote_guards (g : Game) (voterId accusedId : Nat) (gp : Player)
    (hv : lookupKey voterId g.players = some gp) :
    (g.status ≠ Status.voting → submitVoteHandler voterId accusedId g = (g, []))
    ∧ (g.status = Status.voting →
        (hasKey accusedId g.players = false →
          submitVoteHandler voterId accusedId g
            = (g, [Event.errorMsg "Invalid vote target"]))
        ∧ (hasKey accusedId g.players = true → accusedId = voterId →
          submitVoteHandler voterId accusedId g
            = (g, [Event.errorMsg "You cannot vote for yourself"]))
        ∧ (hasKey accusedId g.players = true → accusedId ≠ voterId → gp.hasVoted = true →
          submitVoteHandler voterId accusedId g = (g, []))) := by
  refine ⟨fun h => by simp [submitVoteHandler, if_pos h], fun hs => ⟨?_, ?_, ?_⟩⟩
  all_goals have hs2 : ¬ g.status ≠ Status.voting := by simp [hs]
  · intro hk
    simp [submitVoteHandler, if_neg hs2, hk]
  · intro hk heq
    subst heq
    simp [submitVoteHandler, if_neg hs2, hk]
  · intro hk hne hvoted
    simp [submitVoteHandler, if_neg hs2, hk, hne, hv, hvoted]

/-- Witness for C7 on a round where a vote has been called. -/
theorem submitVote_guards_witness :
    submitVoteHandler 1 2 playingGame = (playingGame, [])
    ∧ submitVoteHandler 1 99 (callVoteHandler playingGame).1
      = ((callVoteHandler playingGame).1, [Event.errorMsg "Invalid vote target"])
    ∧ submitVoteHandler 1 1 (callVoteHandler playingGame).1
      = ((callVoteHandler playingGame).1, [Event.errorMsg "You cannot vote for yourself"])
    ∧ submitVoteHandler 1 3 (submitVoteHandler 1 2 (callVoteHandler playingGame).1).1
      = ((submitVoteHandler 1 2 (callVoteHandler playingGame).1).1, []) := by
  have h0 := submitVote_guards playingGame 1 2
    ⟨1, "P", some Role.nonSpy, true, false, none, false⟩ (by decide)
  have h1 := submitVote_guards (callVoteHandler playingGame).1 1 99
    ⟨1, "P", some Role.nonSpy, true, false, none, false⟩ (by decide)
  have h2 := submitVote_guards (callVoteHandler playingGame).1 1 1
    ⟨1, "P", some Role.nonSpy, true, false, none, false⟩ (by decide)
  have h3 := submitVote_guards (submitVoteHandler 1 2 (callVoteHandler playingGame).1).1 1 3
    ⟨1, "P", some Role.nonSpy, true, true, some 2, false⟩ (by decide)
  exact ⟨h0.1 (by decide),
    (h1.2 (by decide)).1 (by decide),
    (h2.2 (by decide)).2.1 (by decide) rfl,
    (h3.2 (by decide)).2.2 (by decide) (by decide) rfl⟩

/-! ### Claim C1 — role assignment on game start -/

theorem assignRolesList_spyCount (l : List (Nat × Player)) (sid : Nat) :
    ((assignRolesList (some sid) l).filter
        (fun pr => pr.2.role = some Role.spy)).length
      = (l.map Prod.fst).count sid := by
  induction l with
  | nil => rfl
  | cons hd tl ih =>
    by_cases h : hd.1 = sid
    · simp [assignRolesList, h, List.count_cons] at ih ⊢
      omega
    · simp [assignRolesList, h, List.count_cons] at ih ⊢
      exact ih

/-- C1: starting a lobby game with a roster of size in `[4,15]` succeeds and
assigns the role `spy` to exactly one roster member — the one whose identity
sits at the randomly drawn index — and `non-spy` to every other member, and
resets every member's `hasVoted`, `votedFor` and `hasGuessed` state. -/
theorem startGame_roles (g : Game) (i j : Nat)
    (hlobby : g.status = Status.lobby)
    (hmin : MIN_PLAYERS ≤ g.players.length) (hmax : g.players.length ≤ MAX_PLAYERS)
    (hi : i < g.players.length)
    (hnodup : (g.players.map Prod.fst).Nodup) :
    ∃ g2 sid, startGame i j g = Except.ok g2
      ∧ (g.players.map Prod.fst)[i]? = some sid
      ∧ g2.spyId = some sid
      ∧ (g2.players.filter (fun pr => pr.2.role = some Role.spy)).length = 1
      ∧ (∀ pr ∈ g2.players,
          (pr.1 = sid → pr.2.role = some Role.spy)
          ∧ (pr.1 ≠ sid → pr.2.role = some Role.nonSpy)
          ∧ pr.2.hasVoted = false ∧ pr.2.votedFor = none ∧ pr.2.hasGuessed = false) := by
  have hc : ¬ (g.players.length < MIN_PLAYERS ∨ MAX_PLAYERS < g.players.length) := by
    omega
  have hs2 : ¬ g.status ≠ Status.lobby := by simp [hlobby]
  have hlen : i < (g.players.map Prod.fst).length := by simpa using hi
  have hget : (g.players.map Prod.fst)[i]? = some ((g.players.map Prod.fst)[i]) :=
    List.getElem?_eq_getElem hlen
  have hmem : (g.players.map Prod.fst)[i] ∈ g.players.map Prod.fst :=
    List.getElem_mem hlen
  have hrun : startGame i j g
      = Except.ok (sgStartTimer (sgAssignRoles i j (sgResetRound (sgClearTimer (sgSetPlaying g))))) := by
    simp [startGame, if_neg hc, if_neg hs2]
  have hspy : (sgStartTimer (sgAssignRoles i j (sgResetRound (sgClearTimer (sgSetPlaying g))))).spyId
      = (g.players.map Prod.fst)[i]? := rfl
  have hpl : (sgStartTimer (sgAssignRoles i j (sgResetRound (sgClearTimer (sgSetPlaying g))))).players
      = assignRolesList ((g.players.map Prod.fst)[i]?) g.players := rfl
  rw [hget] at hspy hpl
  refine ⟨_, (g.players.map Prod.fst)[i], hrun, hget, hspy, ?_, ?_⟩
  · rw [hpl, assignRolesList_spyCount]
    exact List.count_eq_one_of_mem hnodup hmem
  · intro pr hpr
    rw [hpl] at hpr
    rcases List.mem_map.mp hpr with ⟨q, hq, rfl⟩
    refine ⟨fun h => ?_, fun h => ?_, rfl, rfl, rfl⟩
    · have hpos : some q.1 = some ((g.players.map Prod.fst)[i]) := by rw [h]
      simp [hpos]
    · have hneg : ¬ some q.1 = some ((g.players.map Prod.fst)[i]) :=
        fun hcon => h (Option.some.inj hcon)
      simp
      simpa using hneg

/-- Witness for C1 on the 4-member lobby, drawing spy index 2. -/
theorem startGame_roles_witness :
    ∃ g2 sid, startGame 2 0 (lobbyGame 4) = Except.ok g2
      ∧ g2.spyId = some sid
      ∧ (g2.players.filter (fun pr => pr.2.role = some Role.spy)).length = 1 := by
  obtain ⟨g2, sid, h1, _, h3, h4, _⟩ :=
    startGame_roles (lobbyGame 4) 2 0 (by decide) (by decide) (by decide)
      (by decide) (by decide)
  exact ⟨g2, sid, h1, h3, h4⟩

/-! ### Claim C8 — departures, host re-election and room destruction -/

theorem lookupKey_mem {κ α : Type} [DecidableEq κ] {k : κ} {v : α}
    {m : List (κ × α)} (h : lookupKey k m = some v) : (k, v) ∈ m := by
  induction m with
  | nil => simp [lookupKey] at h
  | cons hd tl ih =>
    obtain ⟨k2, v2⟩ := hd
    by_cases h2 : k2 = k
    · subst h2
      simp [lookupKey] at h
      simp [h]
    · simp [lookupKey, h2] at h
      exact List.mem_cons_of_mem _ (ih h)

theorem lookupKey_eq_none {κ α : Type} [DecidableEq κ] {k : κ}
    {m : List (κ × α)} (h : k ∉ m.map Prod.fst) : lookupKey k m = none := by
  induction m with
  | nil => rfl
  | cons hd tl ih =>
    simp only [List.map_cons, List.mem_cons, not_or] at h
    simp [lookupKey, Ne.symm h.1, ih h.2]

theorem eraseKey_length {κ α : Type} [DecidableEq κ] {k : κ} {v : α}
    {m : List (κ × α)} (h : lookupKey k m = some v) :
    m.length = (eraseKey k m).length + 1 := by
  induction m with
  | nil => simp [lookupKey] at h
  | cons hd tl ih =>
    obtain ⟨k2, v2⟩ := hd
    by_cases h2 : k2 = k
    · simp [eraseKey, h2]
    · simp only [lookupKey, if_neg h2] at h
      simp [eraseKey, h2, ih h]

theorem mem_of_mem_eraseKey {κ α : Type} [DecidableEq κ] {a : κ × α} {k : κ}
    {m : List (κ × α)} (h : a ∈ eraseKey k m) : a ∈ m := by
  induction m with
  | nil => simp [eraseKey] at h
  | cons hd tl ih =>
    obtain ⟨k2, v2⟩ := hd
    by_cases h2 : k2 = k
    · simp only [eraseKey, if_pos h2] at h
      exact List.mem_cons_of_mem _ h
    · simp only [eraseKey, if_neg h2, List.mem_cons] at h
      rcases h with rfl | h
      · exact List.mem_cons_self _ _
      · exact List.mem_cons_of_mem _ (ih h)

theorem mem_keys_eraseKey {κ α : Type} [DecidableEq κ] {a k : κ}
    {m : List (κ × α)} (ha : a ∈ m.map Prod.fst) (hne : a ≠ k) :
    a ∈ (eraseKey k m).map Prod.fst := by
  induction m with
  | nil => simp at ha
  | cons hd tl ih =>
    obtain ⟨k2, v2⟩ := hd
    simp only [List.map_cons, List.mem_cons] at ha
    by_cases h2 : k2 = k
    · simp only [eraseKey, if_pos h2]
      rcases ha with rfl | ha
      · exact absurd h2 (by simpa using hne)
      · exact ha
    · simp only [eraseKey, if_neg h2, List.map_cons, List.mem_cons]
      rcases ha with rfl | ha
      · exact Or.inl rfl
      · exact Or.inr (ih ha)

theorem lookupKey_eraseKey_self {κ α : Type} [DecidableEq κ] (k : κ)
    {m : List (κ × α)} (hnodup : (m.map Prod.fst).Nodup) :
    lookupKey k (eraseKey k m) = none := by
  induction m with
  | nil => rfl
  | cons hd tl ih =>
    obtain ⟨k2, v2⟩ := hd
    simp only [List.map_cons, List.nodup_cons] at hnodup
    by_cases h2 : k2 = k
    · subst h2
      simp only [eraseKey, if_pos rfl]
      exact lookupKey_eq_none hnodup.1
    · simp [eraseKey, lookupKey, h2, ih hnodup.2]

/-- Departure of a non-last member when the host leaves: the head of the
remaining roster is promoted. -/
theorem removePlayer_eq_promote (g : Game) (pid : Nat) (p : Player)
    (q : Nat × Player) (rest : List (Nat × Player))
    (hp : lookupKey pid g.players = some p) (hhost : pid = g.hostId)
    (hqe : eraseKey pid g.players = q :: rest) :
    removePlayerFromGame g pid
      = { g with
          players := (q.1, { q.2 with isHost := true }) :: rest
          hostId := q.2.id } := by
  subst hhost
  simp [removePlayerFromGame, hp, hqe, updateKey]

/-- Departure of a non-host member with others remaining: the roster just
shrinks. -/
theorem removePlayer_eq_plain (g : Game) (pid : Nat) (p : Player)
    (hp : lookupKey pid g.players = some p) (hhost : pid ≠ g.hostId)
    (hne : eraseKey pid g.players ≠ []) :
    removePlayerFromGame g pid = { g with players := eraseKey pid g.players } := by
  simp [removePlayerFromGame, hp, hhost, hne]

/-- Departure of the last member: the game keeps no players and any live
interval is cleared. -/
theorem removePlayer_eq_empty (g : Game) (pid : Nat) (p : Player)
    (hp : lookupKey pid g.players = some p)
    (hqe : eraseKey pid g.players = []) :
    removePlayerFromGame g pid
      = { g with players := [], timerInterval := false } := by
  simp [removePlayerFromGame, hp, hqe]

/-- C8: removing a present member shrinks the roster by exactly one; while
the room survives, the host identity keeps referring to a roster member —
when the host departs and others remain, exactly the first remaining
member in insertion order is promoted (its `isHost` flag is set); when the
last member departs, the game's interval is cleared and a registry holding
the room under its code no longer resolves that code afterwards. -/
theorem removePlayer_spec (g : Game) (pid : Nat) (p : Player)
    (hids : ∀ pr ∈ g.players, pr.2.id = pr.1)
    (hp : lookupKey pid g.players = some p) :
    (removePlayerFromGame g pid).players.length = g.players.length - 1
    ∧ (g.hostId ∈ g.players.map Prod.fst →
        (removePlayerFromGame g pid).players ≠ [] →
        (removePlayerFromGame g pid).hostId
          ∈ (removePlayerFromGame g pid).players.map Prod.fst)
    ∧ (pid = g.hostId → ∀ q rest, eraseKey pid g.players = q :: rest →
        (removePlayerFromGame g pid).hostId = q.1
        ∧ lookupKey q.1 (removePlayerFromGame g pid).players
            = some { q.2 with isHost := true })
    ∧ (eraseKey pid g.players = [] →
        (removePlayerFromGame g pid).timerInterval = false
        ∧ ∀ (games : List (String × Game)) (code : String),
            (games.map Prod.fst).Nodup →
            lookupKey code games = some g →
            lookupKey code (removePlayerRegistry games code pid) = none) := by
  have hlen := eraseKey_length hp
  refine ⟨?_, ?_, ?_, ?_⟩
  · rcases he : eraseKey pid g.players with _ | ⟨q, rest⟩
    · rw [removePlayer_eq_empty g pid p hp he]
      rw [he] at hlen
      simp at hlen ⊢
      omega
    · by_cases hhost : pid = g.hostId
      · rw [removePlayer_eq_promote g pid p q rest hp hhost he]
        rw [he] at hlen
        simp at hlen ⊢
        omega
      · rw [removePlayer_eq_plain g pid p hp hhost (by simp [he])]
        rw [he] at hlen
        simp [he] at hlen ⊢
        omega
  · intro hhmem hne
    rcases he : eraseKey pid g.players with _ | ⟨q, rest⟩
    · rw [removePlayer_eq_empty g pid p hp he] at hne
      simp at hne
    · by_cases hhost : pid = g.hostId
      · rw [removePlayer_eq_promote g pid p q rest hp hhost he]
        have hqmem : q ∈ g.players := mem_of_mem_eraseKey (by rw [he]; exact List.mem_cons_self _ _)
        have := hids q hqmem
        simp [this]
      · rw [removePlayer_eq_plain g pid p hp hhost (by simp [he])]
        have : g.hostId ∈ (eraseKey pid g.players).map Prod.fst :=
          mem_keys_eraseKey hhmem (fun hcon => hhost hcon.symm)
        simpa using this
  · intro hhost q rest he
    rw [removePlayer_eq_promote g pid p q rest hp hhost he]
    have hqmem : q ∈ g.players := mem_of_mem_eraseKey (by rw [he]; exact List.mem_cons_self _ _)
    have hid := hids q hqmem
    exact ⟨by simp [hid], by simp [lookupKey]⟩
  · intro he
    rw [removePlayer_eq_empty g pid p hp he]
    refine ⟨rfl, ?_⟩
    intro games code hgnodup hcode
    have : removePlayerRegistry games code pid = eraseKey code games := by
      simp [removePlayerRegistry, hcode, removePlayer_eq_empty g pid p hp he]
    rw [this]
    exact lookupKey_eraseKey_self code hgnodup

/-- Witness for C8: the host of the 4-member lobby departs (promotion), and
the sole member of a 1-member room departs (destruction). -/
theorem removePlayer_spec_witness :
    (removePlayerFromGame (lobbyGame 4) 1).players.length = 3
    ∧ (removePlayerFromGame (lobbyGame 4) 1).hostId = 2
    ∧ lookupKey "AB12" (removePlayerRegistry [("AB12", lobbyGame 1)] "AB12" 1) = none := by
  have h := removePlayer_spec (lobbyGame 4) 1 (samplePlayer 1) (by decide) (by decide)
  have h1 := removePlayer_spec (lobbyGame 1) 1 (samplePlayer 1) (by decide) (by decide)
  refine ⟨?_, ?_, ?_⟩
  · rw [h.1]; decide
  · exact (h.2.2.1 (by decide) (2, samplePlayer 2)
      [(3, samplePlayer 3), (4, samplePlayer 4)] (by decide)).1
  · exact (h1.2.2.2 (by decide)).2 [("AB12", lobbyGame 1)] "AB12" (by decide) (by decide)

/-! ### Claim C2 — vote tally and tie-breaking -/

theorem lookupKey_incrKey (t k : Nat) (m : List (Nat × Nat)) :
    (lookupKey t (incrKey k m)).getD 0
      = (lookupKey t m).getD 0 + (if k = t then 1 else 0) := by
  induction m with
  | nil =>
    by_cases h : k = t <;> simp [incrKey, lookupKey, h]
  | cons hd tl ih =>
    obtain ⟨k2, v⟩ := hd
    by_cases h2 : k2 = k
    · subst h2
      by_cases h3 : k2 = t <;> simp [incrKey, lookupKey, h3]
    · by_cases h3 : k2 = t
      · subst h3
        simp [incrKey, lookupKey, h2, Ne.symm h2]
      · simp [incrKey, lookupKey, h2, h3, ih]

theorem voteCounts_foldl_aux (l : List (Nat × Player)) (acc : List (Nat × Nat)) (t : Nat) :
    (lookupKey t (l.foldl
        (fun acc pr =>
          match pr.2.votedFor with
          | some t2 => incrKey t2 acc
          | none => acc) acc)).getD 0
      = (lookupKey t acc).getD 0 + countVotesFor t l := by
  induction l generalizing acc with
  | nil => simp [countVotesFor]
  | cons hd tl ih =>
    rw [List.foldl_cons, ih]
    cases hvf : hd.2.votedFor with
    | none => simp [countVotesFor, List.filter_cons, hvf]
    | some t2 =>
      rw [lookupKey_incrKey]
      by_cases h : t2 = t
      · subst h
        simp [countVotesFor, List.filter_cons, hvf]
        omega
      · simp [countVotesFor, List.filter_cons, hvf, h]

theorem voteCounts_getD (l : List (Nat × Player)) (t : Nat) :
    (lookupKey t (voteCountsOf l)).getD 0 = countVotesFor t l := by
  simpa [voteCountsOf, lookupKey] using voteCounts_foldl_aux l [] t

theorem incrKey_pos (k : Nat) (m : List (Nat × Nat)) (h : ∀ pr ∈ m, 0 < pr.2) :
    ∀ pr ∈ incrKey k m, 0 < pr.2 := by
  induction m with
  | nil =>
    intro pr hpr
    simp [incrKey] at hpr
    simp [hpr]
  | cons hd tl ih =>
    intro pr hpr
    obtain ⟨k2, v⟩ := hd
    by_cases h2 : k2 = k
    · simp only [incrKey, if_pos h2, List.mem_cons] at hpr
      rcases hpr with rfl | hpr
      · simp
      · exact h pr (List.mem_cons_of_mem _ hpr)
    · simp only [incrKey, if_neg h2, List.mem_cons] at hpr
      rcases hpr with rfl | hpr
      · exact h _ (List.mem_cons_self _ _)
      · exact ih (fun q hq => h q (List.mem_cons_of_mem _ hq)) pr hpr

theorem voteCounts_pos_aux (l : List (Nat × Player)) (acc : List (Nat × Nat))
    (h : ∀ pr ∈ acc, 0 < pr.2) :
    ∀ pr ∈ l.foldl
        (fun acc pr =>
          match pr.2.votedFor with
          | some t2 => incrKey t2 acc
          | none => acc) acc, 0 < pr.2 := by
  induction l generalizing acc with
  | nil => simpa using h
  | cons hd tl ih =>
    rw [List.foldl_cons]
    cases hvf : hd.2.votedFor with
    | none => simpa [hvf] using ih acc h
    | some t2 => simpa [hvf] using ih (incrKey t2 acc) (incrKey_pos t2 acc h)

theorem voteCounts_pos (l : List (Nat × Player)) :
    ∀ pr ∈ voteCountsOf l, 0 < pr.2 :=
  voteCounts_pos_aux l [] (by simp)

theorem incrKey_keys (k : Nat) (m : List (Nat × Nat)) :
    (incrKey k m).map Prod.fst
      = if k ∈ m.map Prod.fst then m.map Prod.fst else m.map Prod.fst ++ [k] := by
  induction m with
  | nil => simp [incrKey]
  | cons hd tl ih =>
    obtain ⟨k2, v⟩ := hd
    by_cases h2 : k2 = k
    · subst h2
      simp [incrKey]
    · by_cases h3 : k ∈ tl.map Prod.fst
      · simp [incrKey, h2, ih, h3, Ne.symm h2]
      · simp [incrKey, h2, ih, h3, Ne.symm h2]

theorem incrKey_nodup (k : Nat) (m : List (Nat × Nat))
    (h : (m.map Prod.fst).Nodup) : ((incrKey k m).map Prod.fst).Nodup := by
  rw [incrKey_keys]
  by_cases h2 : k ∈ m.map Prod.fst
  · simpa [h2] using h
  · simp [h2, List.nodup_append, h]

theorem voteCounts_nodup_aux (l : List (Nat × Player)) (acc : List (Nat × Nat))
    (h : (acc.map Prod.fst).Nodup) :
    ((l.foldl
        (fun acc pr =>
          match pr.2.votedFor with
          | some t2 => incrKey t2 acc
          | none => acc) acc).map Prod.fst).Nodup := by
  induction l generalizing acc with
  | nil => simpa using h
  | cons hd tl ih =>
    rw [List.foldl_cons]
    cases hvf : hd.2.votedFor with
    | none => simpa [hvf] using ih acc h
    | some t2 => simpa [hvf] using ih (incrKey t2 acc) (incrKey_nodup t2 acc h)

theorem voteCounts_nodup (l : List (Nat × Player)) :
    ((voteCountsOf l).map Prod.fst).Nodup :=
  voteCounts_nodup_aux l [] (by simp)

theorem lookupKey_of_mem_nodup {κ α : Type} [DecidableEq κ] {k : κ} {v : α}
    {m : List (κ × α)} (hnodup : (m.map Prod.fst).Nodup) (h : (k, v) ∈ m) :
    lookupKey k m = some v := by
  induction m with
  | nil => simp at h
  | cons hd tl ih =>
    obtain ⟨k2, v2⟩ := hd
    simp only [List.map_cons, List.nodup_cons] at hnodup
    rcases List.mem_cons.mp h with heq | hmem
    · injection heq with h1 h2
      subst h1
      subst h2
      simp [lookupKey]
    · have hne : k2 ≠ k := by
        intro hcon
        subst hcon
        exact hnodup.1 (by simpa using List.mem_map_of_mem Prod.fst hmem)
      simp [lookupKey, hne, ih hnodup.2 hmem]

theorem one_lt_length_of_two_mem {α : Type} {a b : α} {l : List α}
    (ha : a ∈ l) (hb : b ∈ l) (hne : a ≠ b) : 1 < l.length := by
  rcases l with _ | ⟨x, _ | ⟨y, tl⟩⟩
  · simp at ha
  · simp at ha hb
    exact absurd (ha.trans hb.symm) hne
  · simp

/-- A member of the code's maximum-vote list received exactly the maximum
tally, and that tally is positive. -/
theorem mem_maxWinners (l : List (Nat × Player)) (t : Nat) (h : t ∈ maxWinners l) :
    countVotesFor t l = maxCount (voteCountsOf l)
      ∧ 0 < maxCount (voteCountsOf l) := by
  simp only [maxWinners] at h
  rcases List.mem_map.mp h with ⟨pr, hpr, rfl⟩
  have hmem := (List.mem_filter.mp hpr).1
  have hval : pr.2 = maxCount (voteCountsOf l) := by
    simpa using (List.mem_filter.mp hpr).2
  have hpos : 0 < pr.2 := voteCounts_pos l pr hmem
  have hlk : lookupKey pr.1 (voteCountsOf l) = some pr.2 :=
    lookupKey_of_mem_nodup (voteCounts_nodup l) (by simpa using hmem)
  have hg := voteCounts_getD l pr.1
  rw [hlk] at hg
  simp at hg
  exact ⟨by rw [← hg, hval], hval ▸ hpos⟩

/-- Conversely, any target whose tally is the (positive) maximum appears in
the code's maximum-vote list. -/
theorem cvf_mem_maxWinners (l : List (Nat × Player)) (t : Nat)
    (hpos : 0 < maxCount (voteCountsOf l))
    (hcv : countVotesFor t l = maxCount (voteCountsOf l)) : t ∈ maxWinners l := by
  have hg := voteCounts_getD l t
  rw [hcv] at hg
  have hsome : lookupKey t (voteCountsOf l) = some (maxCount (voteCountsOf l)) := by
    cases hl : lookupKey t (voteCountsOf l) with
    | none => rw [hl] at hg; simp at hg; omega
    | some c => rw [hl] at hg; simp at hg; rw [hg]
  have hmem := lookupKey_mem hsome
  simp only [maxWinners]
  exact List.mem_map.mpr
    ⟨(t, maxCount (voteCountsOf l)), List.mem_filter.mpr ⟨hmem, by simp⟩, rfl⟩

theorem maxWinners_nodup (l : List (Nat × Player)) : (maxWinners l).Nodup := by
  simp only [maxWinners]
  exact (voteCounts_nodup l).sublist (List.Sublist.map _ (List.filter_sublist _))

/-- C2: once every roster member has voted, the round resolves from the
per-target tallies — the code's tally map agrees with the direct per-target
count; more than one target tying for the (positive) maximum is exactly the
code's tie condition and resolves `vote_tie` with winner `spy`; a sole
maximum-vote target received the maximum tally and resolves `spy_caught`
(winner `non-spies`) when it is the spy and `innocent_accused` (winner
`spy`) otherwise — for every roster size. -/
theorem processVotes_resolution (g : Game)
    (hall : (g.players.filter (fun pr => pr.2.hasVoted)).length = g.players.length) :
    (∀ t, (lookupKey t (voteCountsOf g.players)).getD 0 = countVotesFor t g.players)
    ∧ ((∃ t1 t2, t1 ≠ t2 ∧ 0 < maxCount (voteCountsOf g.players)
          ∧ countVotesFor t1 g.players = maxCount (voteCountsOf g.players)
          ∧ countVotesFor t2 g.players = maxCount (voteCountsOf g.players))
        ↔ 1 < (maxWinners g.players).length)
    ∧ (1 < (maxWinners g.players).length →
        processVotes g = endGame g "vote_tie" (some "spy"))
    ∧ (∀ t, maxWinners g.players = [t] →
        countVotesFor t g.players = maxCount (voteCountsOf g.players)
        ∧ (g.spyId = some t →
            processVotes g = endGame g "spy_caught" (some "non-spies"))
        ∧ (g.spyId ≠ some t →
            processVotes g = endGame g "innocent_accused" (some "spy"))) := by
  refine ⟨voteCounts_getD g.players, ⟨?_, ?_⟩, ?_, ?_⟩
  · rintro ⟨t1, t2, hne, hm, h1, h2⟩
    exact one_lt_length_of_two_mem (cvf_mem_maxWinners _ _ hm h1)
      (cvf_mem_maxWinners _ _ hm h2) hne
  · intro hlen
    rcases hw : maxWinners g.players with _ | ⟨a, _ | ⟨b, tl2⟩⟩
    · rw [hw] at hlen; simp at hlen
    · rw [hw] at hlen; simp at hlen
    · have hnd := maxWinners_nodup g.players
      rw [hw] at hnd
      have hnotmem : a ∉ b :: tl2 := (List.nodup_cons.mp hnd).1
      have hab : a ≠ b := fun he => hnotmem (he ▸ List.mem_cons_self b tl2)
      have ha : a ∈ maxWinners g.players := by rw [hw]; simp
      have hb : b ∈ maxWinners g.players := by rw [hw]; simp
      obtain ⟨hca, hpa⟩ := mem_maxWinners _ _ ha
      obtain ⟨hcb, _⟩ := mem_maxWinners _ _ hb
      exact ⟨a, b, hab, hpa, hca, hcb⟩
  · intro hlen
    simp [processVotes, hall, hlen]
  · intro t hw
    have hmem : t ∈ maxWinners g.players := by rw [hw]; simp
    refine ⟨(mem_maxWinners _ _ hmem).1, ?_, ?_⟩
    · intro hspy
      simp [processVotes, hall, hw, hspy]
    · intro hspy
      cases hs : g.spyId with
      | none => simp [processVotes, hall, hw, hs]
      | some s =>
        have hts : ¬ t = s := fun he => hspy (by rw [hs, he])
        simp [processVotes, hall, hw, hs, hts]

/-- The 7-player roster of the spec's worked example: targets 2 and 3 each
receive 3 votes, target 4 receives 1. -/
def votedPlayer (i t : Nat) : Player :=
  { id := i
    name := "P"
    role := some Role.nonSpy
    isHost := decide (i = 1)
    hasVoted := true
    votedFor := some t
    hasGuessed := false }

def tieGame : Game :=
  { roomCode := "AB12"
    hostId := 1
    players := [(1, votedPlayer 1 2), (2, votedPlayer 2 3), (3, votedPlayer 3 2),
                (4, votedPlayer 4 3), (5, votedPlayer 5 2), (6, votedPlayer 6 3),
                (7, votedPlayer 7 4)]
    status := Status.voting
    location := some "Beach"
    spyId := some 5
    timer := 100
    timerInterval := false
    votes := []
    voteCalled := true }

/-- Witness for C2: votes A:3, B:3, C:1 among 7 players resolve `vote_tie`
with the spy winning. -/
theorem processVotes_resolution_witness :
    processVotes tieGame = endGame tieGame "vote_tie" (some "spy")
    ∧ maxWinners tieGame.players = [2, 3]
    ∧ countVotesFor 2 tieGame.players = 3
    ∧ countVotesFor 3 tieGame.players = 3
    ∧ countVotesFor 4 tieGame.players = 1 :=
  ⟨(processVotes_resolution tieGame (by decide)).2.2.1 (by decide),
    by decide, by decide, by decide, by decide⟩

/-! ### Claim C10 — phase monotonicity -/

theorem processVotes_status (g : Game) :
    (processVotes g).1.status = g.status
      ∨ (processVotes g).1.status = Status.ended := by
  simp only [processVotes]
  split
  · split
    · right; rfl
    · split
      · split
        · right; rfl
        · right; rfl
      · right; rfl
  · left; rfl

theorem submitVote_status (v a : Nat) (g : Game) :
    (submitVoteHandler v a g).1.status = g.status
      ∨ (submitVoteHandler v a g).1.status = Status.ended := by
  simp only [submitVoteHandler]
  split
  · left; rfl
  · split
    · left; rfl
    · split
      · left; rfl
      · split
        · left; rfl
        · split
          · left; rfl
          · exact processVotes_status _

theorem spyGuess_status (p : Nat) (loc : String) (g : Game) :
    (spyGuessHandler p loc g).1.status = g.status
      ∨ (spyGuessHandler p loc g).1.status = Status.ended := by
  simp only [spyGuessHandler]
  split
  · left; rfl
  · split
    · left; rfl
    · split
      · left; rfl
      · split
        · left; rfl
        · split
          · left; rfl
          · split
            · right; rfl
            · right; rfl

theorem tick_status (g : Game) :
    (tick g).1.status = g.status ∨ (tick g).1.status = Status.ended := by
  simp only [tick]
  split
  · split
    · right; rfl
    · left; rfl
  · left; rfl

theorem callVote_status (g : Game) :
    (callVoteHandler g).1 = g
      ∨ (g.status = Status.playing ∧ (callVoteHandler g).1.status = Status.voting) := by
  simp only [callVoteHandler]
  split
  · left; rfl
  · split
    · left; rfl
    · next h _ => right; exact ⟨not_not.mp h, rfl⟩

theorem applyStart_status (i j : Nat) (g : Game) :
    applyStart i j g = g
      ∨ (g.status = Status.lobby ∧ (applyStart i j g).status = Status.playing) := by
  by_cases hc : g.players.length < MIN_PLAYERS ∨ MAX_PLAYERS < g.players.length
  · left
    simp [applyStart, startGame, if_pos hc]
  · by_cases hs : g.status ≠ Status.lobby
    · left
      simp [applyStart, startGame, if_neg hc, if_pos hs]
    · right
      refine ⟨not_not.mp hs, ?_⟩
      simp [applyStart, startGame, if_neg hc, if_neg hs]
      rfl

theorem removePlayer_status (g : Game) (pid : Nat) :
    (removePlayerFromGame g pid).status = g.status := by
  rcases hp : lookupKey pid g.players with _ | p
  · simp only [removePlayerFromGame, hp]
    split <;> rfl
  · rcases he : eraseKey pid g.players with _ | ⟨q, rest⟩
    · rw [removePlayer_eq_empty g pid p hp he]
    · by_cases hh : pid = g.hostId
      · rw [removePlayer_eq_promote g pid p q rest hp hh he]
      · rw [removePlayer_eq_plain g pid p hp hh (by simp [he])]

theorem joinRoom_status (pid : Nat) (n : String) (g : Game) :
    (joinRoomGame pid n g).status = g.status := by
  simp only [joinRoomGame, addPlayerToGame]
  split
  · rfl
  · split
    · rfl
    · split
      · rfl
      · split
        · rfl
        · rfl

/-- C10: every operation either leaves the phase unchanged, performs
lobby→playing (and is a `startGame`), performs playing→voting (and is a
`callVote`), or lands in `ended`; hence no operation ever returns a phase
to `lobby`, and a game whose phase is `ended` stays `ended` forever while
every further `startGame` on it is rejected — each room plays at most one
round. -/
theorem phase_monotonic (op : Op) (g : Game) :
    ((applyOp op g).status = g.status
      ∨ (g.status = Status.lobby ∧ (applyOp op g).status = Status.playing
          ∧ ∃ i j, op = Op.startOp i j)
      ∨ (g.status = Status.playing ∧ (applyOp op g).status = Status.voting
          ∧ op = Op.callVoteOp)
      ∨ (applyOp op g).status = Status.ended)
    ∧ (g.status ≠ Status.lobby → (applyOp op g).status ≠ Status.lobby)
    ∧ (g.status = Status.ended →
        (applyOp op g).status = Status.ended
        ∧ ∀ i j, ∃ e, startGame i j g = Except.error e) := by
  have hmain : (applyOp op g).status = g.status
      ∨ (g.status = Status.lobby ∧ (applyOp op g).status = Status.playing
          ∧ ∃ i j, op = Op.startOp i j)
      ∨ (g.status = Status.playing ∧ (applyOp op g).status = Status.voting
          ∧ op = Op.callVoteOp)
      ∨ (applyOp op g).status = Status.ended := by
    cases op with
    | startOp i j =>
      rcases applyStart_status i j g with h | ⟨h1, h2⟩
      · left
        show (applyStart i j g).status = g.status
        rw [h]
      · right; left
        exact ⟨h1, h2, i, j, rfl⟩
    | callVoteOp =>
      rcases callVote_status g with h | ⟨h1, h2⟩
      · left
        show (callVoteHandler g).1.status = g.status
        rw [h]
      · right; right; left
        exact ⟨h1, h2, rfl⟩
    | submitVoteOp v a =>
      rcases submitVote_status v a g with h | h
      · left; exact h
      · right; right; right; exact h
    | spyGuessOp p l =>
      rcases spyGuess_status p l g with h | h
      · left; exact h
      · right; right; right; exact h
    | tickOp =>
      rcases tick_status g with h | h
      · left; exact h
      · right; right; right; exact h
    | joinOp pid n => left; exact joinRoom_status pid n g
    | leaveOp pid => left; exact removePlayer_status g pid
    | chatOp => left; rfl
  refine ⟨hmain, ?_, ?_⟩
  · intro hn
    rcases hmain with h | ⟨h1, _⟩ | ⟨_, h2, _⟩ | h
    · rw [h]; exact hn
    · exact absurd h1 hn
    · rw [h2]; decide
    · rw [h]; decide
  · intro he
    constructor
    · rcases hmain with h | ⟨h1, _⟩ | ⟨h1, _, _⟩ | h
      · rw [h, he]
      · rw [he] at h1; exact absurd h1 (by decide)
      · rw [he] at h1; exact absurd h1 (by decide)
      · exact h
    · intro i j
      by_cases hc : g.players.length < MIN_PLAYERS ∨ MAX_PLAYERS < g.players.length
      · exact ⟨"Game needs 4-15 players", by simp [startGame, if_pos hc]⟩
      · refine ⟨"Game already in progress", ?_⟩
        have hs : g.status ≠ Status.lobby := by rw [he]; decide
        simp [startGame, if_neg hc, if_pos hs]

/-- Witness for C10: an ended room stays ended under `callVote` and rejects
`startGame`. -/
theorem phase_monotonic_witness :
    (applyOp Op.callVoteOp { lobbyGame 4 with status := Status.ended }).status
      = Status.ended
    ∧ ∃ e, startGame 0 0 { lobbyGame 4 with status := Status.ended }
        = Except.error e := by
  have h := (phase_monotonic Op.callVoteOp
    { lobbyGame 4 with status := Status.ended }).2.2 (by decide)
  exact ⟨h.1, h.2 0 0⟩

/-- Witness for the amended C4. -/
theorem createRoom_registers_unconditionally_witness :
    (generateRoomCode 171 18).length = 4
    ∧ lookupKey "AB12" (createRoomHandler "AB12" 3 "Bob" []).1
        = some (addPlayerToGame (createGame "AB12" 3) 3 "Bob") :=
  ⟨(createRoom_registers_unconditionally 171 18).1.1,
    ((createRoom_registers_unconditionally 171 18).2 [] "AB12" 3 "Bob" (by decide)).2⟩

end Spyfall
